import Mathlib

/-!
Shallow embedding of the messaging subsystem of the SC_Backend repository
(`src/models/Conversation.js`, the message model in `src/unnamed/part_002`,
and the conversation/message routes). Identifiers are modelled as `Nat`,
timestamps as `Nat`, MongoDB documents as Lean structures, collections as
lists, and each Express route handler as a pure function from a store state
to a result together with the successor state.
-/

/-- JS `String.prototype.trim` / express-validator's `trim()` sanitizer:
drop whitespace from both ends.  Modelled over the character list. -/
def isWS (c : Char) : Bool :=
  c == ' ' || c == '\t' || c == '\n' || c == '\r'

def strTrim (s : String) : String :=
  ⟨((s.toList.dropWhile isWS).reverse.dropWhile isWS).reverse⟩

/-- JS `String.prototype.substring(0, n)`: keep the first `n` characters. -/
def strTake (s : String) (n : Nat) : String :=
  ⟨s.toList.take n⟩

/-- express-validator chain on message content in `messageValidation` and on
`initialMessage`: `.trim().notEmpty().isLength({min:1,max:1000})`. -/
def contentValid (s : String) : Bool :=
  Nat.ble 1 (strTrim s).length && Nat.ble (strTrim s).length 1000

/-- A mongoose `Map` of `userId → Number`, keyed by the stringified id.
JS `Map.set` replaces the entry of an existing key and otherwise appends. -/
def mapGet : List (Nat × Nat) → Nat → Option Nat
  | [], _ => none
  | (k', v') :: rest, k => if k' == k then some v' else mapGet rest k

def mapSet : List (Nat × Nat) → Nat → Nat → List (Nat × Nat)
  | [], k, v => [(k, v)]
  | (k', v') :: rest, k, v =>
      if k' == k then (k, v) :: rest else (k', v') :: mapSet rest k v

structure Participant where
  userId : Nat
  userName : String
deriving DecidableEq

structure LastMessage where
  content : String
  senderId : Option Nat
  timestamp : Nat
deriving DecidableEq

/-- `conversationSchema` (src/models/Conversation.js). `updatedAt` is the
mongoose `timestamps: true` field, bumped by every save. -/
structure Conversation where
  id : Nat
  participants : List Participant
  serviceId : Option Nat
  serviceTitle : Option String
  lastMessage : LastMessage
  isActive : Bool
  unreadCount : List (Nat × Nat)
  updatedAt : Nat
deriving DecidableEq

structure Attachment where
  type : String
  url : String
  filename : String
  size : Nat
deriving DecidableEq

/-- `messageSchema` (src/unnamed/part_002).  `createdAt` is the mongoose
timestamp assigned when the document is first saved. -/
structure Message where
  id : Nat
  conversationId : Nat
  senderId : Nat
  senderName : String
  content : String
  messageType : String
  attachments : List Attachment
  isRead : Bool
  readAt : Option Nat
  isEdited : Bool
  editedAt : Option Nat
  replyTo : Option Nat
  createdAt : Nat
deriving DecidableEq

/-- User record as far as the messaging routes read it. -/
structure User where
  id : Nat
  firstName : String
  lastName : String
  isActive : Bool
deriving DecidableEq

/-- Service record as far as the conversation-creation route reads it. -/
structure Service where
  id : Nat
  title : String
  isActive : Bool
deriving DecidableEq

/-- The backing store: each MongoDB collection as a list (find order =
natural/insertion order, which is what an unsorted `findOne` scans). -/
structure St where
  users : List User
  services : List Service
  conversations : List Conversation
  messages : List Message
deriving DecidableEq

/-- Error kinds, one per HTTP status the handlers produce.  A 400 carries
the express-validator field paths from `errors.array()` (empty for
hand-written 400 responses). -/
inductive ErrKind where
  | badRequest (fields : List String)
  | unauthorized
  | forbidden
  | notFound
  | conflict
  | internal
deriving DecidableEq

/-- `conversationSchema.methods.hasParticipant`. -/
def Conversation.hasParticipant (c : Conversation) (uid : Nat) : Bool :=
  c.participants.any (fun p => p.userId == uid)

/-- The unread-counter loop inside `updateLastMessage`:
`participants.forEach(p => if p ≠ sender then unreadCount.set(p, (get p || 0) + 1))`. -/
def bumpUnread (senderId : Nat) (parts : List Participant)
    (m0 : List (Nat × Nat)) : List (Nat × Nat) :=
  parts.foldl
    (fun m p =>
      if p.userId != senderId then
        mapSet m p.userId ((mapGet m p.userId).getD 0 + 1)
      else m)
    m0

/-- `conversationSchema.methods.updateLastMessage(content, senderId)` followed
by its `save()`: sets `lastMessage = {content.substring(0,100), senderId, now}`,
bumps every non-sender participant's unread counter, bumps `updatedAt`. -/
def Conversation.updateLastMessage (c : Conversation) (content : String)
    (senderId now : Nat) : Conversation :=
  { c with
    lastMessage :=
      { content := strTake content 100, senderId := some senderId, timestamp := now }
    unreadCount := bumpUnread senderId c.participants c.unreadCount
    updatedAt := now }

/-- `conversationSchema.methods.markAsRead(userId)` followed by its `save()`. -/
def Conversation.markAsRead (c : Conversation) (uid now : Nat) : Conversation :=
  { c with unreadCount := mapSet c.unreadCount uid 0, updatedAt := now }

/-- `conversationSchema.statics.findBetweenUsers(u1, u2)`: `findOne` over
`{$and:[{'participants.userId':u1},{'participants.userId':u2}], isActive:true}`. -/
def findBetweenUsers (convs : List Conversation) (u1 u2 : Nat) : Option Conversation :=
  convs.find? (fun c => c.hasParticipant u1 && c.hasParticipant u2 && c.isActive)

/-- `conversationSchema.statics.createConversation(user1, user2, serviceId,
serviceTitle)`: two participants, unread counters initialised to 0 for both
(object literal `{[u1]:0, [u2]:0}`), `isActive` defaulted `true`,
`lastMessage` defaulted to empty content / null sender / now. -/
def createConversation (user1 user2 : User) (serviceId : Option Nat)
    (serviceTitle : Option String) (cid now : Nat) : Conversation :=
  { id := cid
    participants :=
      [ { userId := user1.id, userName := user1.firstName ++ " " ++ user1.lastName }
      , { userId := user2.id, userName := user2.firstName ++ " " ++ user2.lastName } ]
    serviceId := serviceId
    serviceTitle := serviceTitle
    lastMessage := { content := "", senderId := none, timestamp := now }
    isActive := true
    unreadCount := mapSet (mapSet [] user1.id 0) user2.id 0
    updatedAt := now }

/-- The single-conversation update performed by `messageSchema.post('save')`
via `Conversation.findByIdAndUpdate`: overwrite the `lastMessage` fields with
the saved message's content/sender/createdAt, and set `updatedAt` likewise. -/
def applyLastMessageSync (c : Conversation) (content : String)
    (senderId ts : Nat) : Conversation :=
  { c with
    lastMessage := { content := content, senderId := some senderId, timestamp := ts }
    updatedAt := ts }

/-- `messageSchema.post('save')` hook: `findByIdAndUpdate(this.conversationId, …)`.
MongoDB `_id` is unique, so the id-guarded map touches at most one record. -/
def postSaveHook (m : Message) (convs : List Conversation) : List Conversation :=
  convs.map (fun c =>
    if c.id == m.conversationId then
      applyLastMessageSync c m.content m.senderId m.createdAt
    else c)

/-- Persisting a brand-new message document: `new Message(...); await
message.save()` inserts the document and then fires the post-save hook. -/
def saveNewMessage (st : St) (m : Message) : St :=
  { st with
    messages := st.messages ++ [m]
    conversations := postSaveHook m st.conversations }

/-- Re-saving an existing message document (`markAsRead` / `editContent` call
`this.save()`): the stored document is replaced and the post-save hook fires. -/
def saveExistingMessage (st : St) (m : Message) : St :=
  { st with
    messages := st.messages.map (fun x => if x.id == m.id then m else x)
    conversations := postSaveHook m st.conversations }

/-- `messageSchema.methods.markAsRead`. -/
def Message.markAsRead (m : Message) (now : Nat) : Message :=
  { m with isRead := true, readAt := some now }

/-- `messageSchema.methods.editContent`. -/
def Message.editContent (m : Message) (newContent : String) (now : Nat) : Message :=
  { m with content := newContent, isEdited := true, editedAt := some now }

/-- Editing a message document: mutate then `save()` (fires the hook). -/
def editContentOp (st : St) (m : Message) (newContent : String) (now : Nat) : St :=
  saveExistingMessage st (m.editContent newContent now)

/-- Marking one message document read: mutate then `save()` (fires the hook). -/
def markAsReadOp (st : St) (m : Message) (now : Nat) : St :=
  saveExistingMessage st (m.markAsRead now)

/-- The per-document update of `messageSchema.statics.markConversationAsRead`'s
`updateMany({conversationId, senderId: {$ne: userId}, isRead: false}, …)`. -/
def markMsgRead (convId uid now : Nat) (m : Message) : Message :=
  if m.conversationId == convId && m.senderId != uid && !m.isRead then
    { m with isRead := true, readAt := some now }
  else m

/-- `messageSchema.statics.markConversationAsRead`.  `updateMany` does not
fire document save hooks, so the conversation collection is untouched. -/
def markConversationAsRead (msgs : List Message) (convId uid now : Nat) : List Message :=
  msgs.map (markMsgRead convId uid now)

/-- Insertion step for the `.sort({createdAt: -1})` (newest-first) ordering. -/
def insertDesc (m : Message) : List Message → List Message
  | [] => [m]
  | x :: xs =>
      if Nat.ble x.createdAt m.createdAt then m :: x :: xs
      else x :: insertDesc m xs

/-- MongoDB `.sort({createdAt: -1})`: newest first. -/
def sortByCreatedAtDesc : List Message → List Message
  | [] => []
  | x :: xs => insertDesc x (sortByCreatedAtDesc xs)

/-- One character of a MongoDB `$regex` pattern against one subject character,
with the `i` (case-insensitive) option.  `.` matches any character. -/
def dotCharMatch (p c : Char) : Bool :=
  p == '.' || p.toLower == c.toLower

/-- The pattern consumes a prefix of the subject (patterns here are built from
literal characters and the `.` wildcard, each consuming exactly one char). -/
def dotPrefixMatch : List Char → List Char → Bool
  | [], _ => true
  | _ :: _, [] => false
  | p :: ps, c :: cs => dotCharMatch p c && dotPrefixMatch ps cs

/-- Unanchored regex search: the pattern matches at some position. -/
def regexFindAux (pat : List Char) : List Char → Bool
  | [] => dotPrefixMatch pat []
  | c :: cs => dotPrefixMatch pat (c :: cs) || regexFindAux pat cs

/-- MongoDB `{$regex: query, $options: 'i'}` as the routes use it: the raw
query string is the pattern.  Modelled for the PCRE fragment of literal
characters plus the `.` wildcard; other metacharacters are not modelled. -/
def regexMatchI (pat s : String) : Bool :=
  regexFindAux pat.toList s.toList

/-- `needle` is a prefix of `hay` (literal, already case-folded). -/
def litMatchAt : List Char → List Char → Bool
  | [], _ => true
  | _ :: _, [] => false
  | a :: as, b :: bs => a == b && litMatchAt as bs

/-- `needle` occurs somewhere in `hay` (literal, already case-folded). -/
def hasSubstring (needle : List Char) : List Char → Bool
  | [] => litMatchAt needle []
  | c :: cs => litMatchAt needle (c :: cs) || hasSubstring needle cs

/-- The spec's reading of search: `s` contains `q` as a case-insensitive
(literal) substring.  Stated from the spec's words, for comparison with the
`$regex` behaviour the source actually implements. -/
def containsCI (s q : String) : Bool :=
  hasSubstring (q.toList.map Char.toLower) (s.toList.map Char.toLower)

/-- `messageSchema.statics.searchInConversation(conversationId, query)`:
`find({conversationId, content: {$regex: query, $options:'i'}})
 .sort({createdAt:-1}).limit(10)`. -/
def searchInConversation (msgs : List Message) (convId : Nat) (q : String) :
    List Message :=
  (sortByCreatedAtDesc
    (msgs.filter (fun m => m.conversationId == convId && regexMatchI q m.content))).take 10

/-- `messageSchema.statics.getForConversation(conversationId, limit, skip)`:
newest-first, then skip, then limit (MongoDB applies sort → skip → limit). -/
def getForConversation (msgs : List Message) (convId limit skip : Nat) :
    List Message :=
  ((sortByCreatedAtDesc (msgs.filter (fun m => m.conversationId == convId))).drop skip).take limit

/-- The `$match` stage of `messageSchema.statics.getUnreadCount` after the
`$lookup` join: some conversation with this message's `conversationId` has
`userId` among its participants, the sender is not `userId`, and the message
is unread. -/
def unreadMatch (convs : List Conversation) (uid : Nat) (m : Message) : Bool :=
  convs.any (fun c => c.id == m.conversationId && c.hasParticipant uid)
    && m.senderId != uid && !m.isRead

/-- `messageSchema.statics.getUnreadCount(userId)`: two-stage aggregation —
group matched messages by conversation with a count, then group everything
into one `totalUnread` sum.  An empty `$group` input yields no documents,
so the result is `[]` exactly when nothing matched. -/
def getUnreadCount (convs : List Conversation) (msgs : List Message) (uid : Nat) :
    List Nat :=
  let matched := msgs.filter (unreadMatch convs uid)
  let gids := (matched.map (fun m => m.conversationId)).dedup
  let perConv := gids.map (fun g => (matched.filter (fun m => m.conversationId == g)).length)
  match perConv with
  | [] => []
  | _ => [perConv.sum]

/-- The new message document built by the send routes (`new Message({...})`;
`content` arrives already trimmed by the validator's `trim()` sanitizer, and
the schema's `trim: true` re-trim is a no-op on it). -/
def newMessage (convId senderId : Nat) (senderName content : String)
    (msgId now : Nat) : Message :=
  { id := msgId
    conversationId := convId
    senderId := senderId
    senderName := senderName
    content := strTrim content
    messageType := "text"
    attachments := []
    isRead := false
    readAt := none
    isEdited := false
    editedAt := none
    replyTo := none
    createdAt := now }

/-- State right after `await message.save()` in the send flows: the message is
persisted and the post-save hook has updated the conversation summary. -/
def sendPersistedSt (st : St) (c : Conversation) (sender : User)
    (content : String) (msgId now : Nat) : St :=
  saveNewMessage st
    (newMessage c.id sender.id (sender.firstName ++ " " ++ sender.lastName) content msgId now)

/-- The final `await conversation.updateLastMessage(content, senderId)` of the
send flows: the in-memory document `c` (fetched before the hook ran) is
updated and saved, overwriting the hook's write of `lastMessage`/`updatedAt`. -/
def writeBackUpdateLastMessage (convs : List Conversation) (c : Conversation)
    (content : String) (senderId now : Nat) : List Conversation :=
  convs.map (fun x =>
    if x.id == c.id then c.updateLastMessage content senderId now else x)

/-- `POST /conversations/:conversationId/messages`: validate content, fetch
the conversation (`findById`, no `isActive` filter here), 404 unless it
exists and the requester participates, then persist the message (hook fires)
and update the conversation summary. -/
def sendMessageRoute (st : St) (sender : User) (convId : Nat) (content : String)
    (msgId now : Nat) : (Except ErrKind Nat) × St :=
  if !contentValid content then (.error (.badRequest ["content"]), st)
  else
    match st.conversations.find? (fun c => c.id == convId) with
    | none => (.error .notFound, st)
    | some c =>
      if !c.hasParticipant sender.id then (.error .notFound, st)
      else
        let st1 := sendPersistedSt st c sender content msgId now
        let st2 :=
          { st1 with
            conversations :=
              writeBackUpdateLastMessage st1.conversations c (strTrim content) sender.id now }
        (.ok msgId, st2)

/-- The shared tail of `POST /conversations` once the target conversation
`c0` is in the store: persist the initial message, then
`conversation.updateLastMessage(initialMessage, req.user._id)`. -/
def finishCreateConv (st : St) (c0 : Conversation) (requester : User)
    (content : String) (msgId now : Nat) : (Except ErrKind Nat) × St :=
  let st1 := sendPersistedSt st c0 requester content msgId now
  let st2 :=
    { st1 with
      conversations :=
        writeBackUpdateLastMessage st1.conversations c0 (strTrim content) requester.id now }
  (.ok c0.id, st2)

/-- `POST /conversations` (getOrCreateConversation): validation, self-check
(400), target-user check (404), reuse per `findBetweenUsers` else create
(optionally snapshotting an active service's title, 404 otherwise), then
send the initial message. -/
def createConvRoute (st : St) (requester : User) (participantId : Nat)
    (serviceId : Option Nat) (initialMessage : String)
    (freshConvId msgId now : Nat) : (Except ErrKind Nat) × St :=
  if !contentValid initialMessage then (.error (.badRequest ["initialMessage"]), st)
  else if participantId == requester.id then (.error (.badRequest []), st)
  else
    match st.users.find? (fun u => u.id == participantId) with
    | none => (.error .notFound, st)
    | some otherUser =>
      if !otherUser.isActive then (.error .notFound, st)
      else
        match findBetweenUsers st.conversations requester.id participantId with
        | some conv => finishCreateConv st conv requester initialMessage msgId now
        | none =>
          match serviceId with
          | some sid =>
            match st.services.find? (fun s => s.id == sid) with
            | none => (.error .notFound, st)
            | some s =>
              if !s.isActive then (.error .notFound, st)
              else
                let newConv :=
                  createConversation requester otherUser serviceId (some s.title)
                    freshConvId now
                finishCreateConv
                  { st with conversations := st.conversations ++ [newConv] }
                  newConv requester initialMessage msgId now
          | none =>
            let newConv :=
              createConversation requester otherUser none none freshConvId now
            finishCreateConv
              { st with conversations := st.conversations ++ [newConv] }
              newConv requester initialMessage msgId now

/-- `GET /conversations/:conversationId`: 404 when missing or inactive, 403
when the requester is not a participant, else mark the conversation read
(conversation-level counter only) and return it. -/
def getConversationRoute (st : St) (uid convId now : Nat) :
    (Except ErrKind Nat) × St :=
  match st.conversations.find? (fun c => c.id == convId) with
  | none => (.error .notFound, st)
  | some c =>
    if !c.isActive then (.error .notFound, st)
    else if !c.hasParticipant uid then (.error .forbidden, st)
    else
      (.ok c.id,
       { st with
         conversations :=
           st.conversations.map (fun x =>
             if x.id == c.id then c.markAsRead uid now else x) })

/-- `GET /conversations/:conversationId/messages`: page/limit validation,
404 when the conversation is missing or the requester does not participate,
else fetch a newest-first page, bulk-mark not-own unread messages read, and
return the page reversed to chronological order (fetch-before-mark). -/
def getMessagesRoute (st : St) (uid convId page limit now : Nat) :
    (Except ErrKind (List Message)) × St :=
  if page < 1 ∨ limit < 1 ∨ limit > 100 then (.error (.badRequest ["page", "limit"]), st)
  else
    match st.conversations.find? (fun c => c.id == convId) with
    | none => (.error .notFound, st)
    | some c =>
      if !c.hasParticipant uid then (.error .notFound, st)
      else
        let msgs := getForConversation st.messages convId limit ((page - 1) * limit)
        (.ok msgs.reverse,
         { st with messages := markConversationAsRead st.messages convId uid now })

/-- `PUT /conversations/:conversationId/read`: 404 when missing or not a
participant, else reset the conversation-level counter for the requester and
bulk-mark that conversation's not-own unread messages read. -/
def markReadRoute (st : St) (uid convId now : Nat) : (Except ErrKind Unit) × St :=
  match st.conversations.find? (fun c => c.id == convId) with
  | none => (.error .notFound, st)
  | some c =>
    if !c.hasParticipant uid then (.error .notFound, st)
    else
      (.ok (),
       { st with
         conversations :=
           st.conversations.map (fun x =>
             if x.id == c.id then c.markAsRead uid now else x)
         messages := markConversationAsRead st.messages convId uid now })

/-- `GET /unread-count`: `result.length > 0 ? result[0].totalUnread : 0`. -/
def unreadCountRoute (st : St) (uid : Nat) : Nat :=
  match getUnreadCount st.conversations st.messages uid with
  | [] => 0
  | t :: _ => t

/-- `GET /search`: search term required; with a `conversationId` the
requester must participate (404 otherwise) and the per-conversation search
runs; without one, the requester's active conversations are collected and
messages across them are regex-filtered, newest first, limit 20. -/
def searchRoute (st : St) (uid : Nat) (q : String) (conversationId : Option Nat) :
    (Except ErrKind (List Message)) × St :=
  if (strTrim q).length == 0 then (.error (.badRequest ["q"]), st)
  else
    match conversationId with
    | some cid =>
      match st.conversations.find? (fun c => c.id == cid) with
      | none => (.error .notFound, st)
      | some c =>
        if !c.hasParticipant uid then (.error .notFound, st)
        else (.ok (searchInConversation st.messages cid (strTrim q)), st)
    | none =>
      let convIds :=
        (st.conversations.filter (fun c => c.hasParticipant uid && c.isActive)).map
          (fun c => c.id)
      (.ok
        ((sortByCreatedAtDesc
          (st.messages.filter (fun m =>
            convIds.contains m.conversationId && regexMatchI (strTrim q) m.content))).take 20),
       st)

instance {ε α : Type} [DecidableEq ε] [DecidableEq α] : DecidableEq (Except ε α) :=
  fun x y =>
    match x, y with
    | .ok a, .ok b =>
        if h : a = b then .isTrue (by rw [h])
        else .isFalse (by intro hc; cases hc; exact h rfl)
    | .error a, .error b =>
        if h : a = b then .isTrue (by rw [h])
        else .isFalse (by intro hc; cases hc; exact h rfl)
    | .ok _, .error _ => .isFalse (by intro hc; cases hc)
    | .error _, .ok _ => .isFalse (by intro hc; cases hc)

theorem mapGet_mapSet_self (m : List (Nat × Nat)) (k v : Nat) :
    mapGet (mapSet m k v) k = some v := by
  induction m with
  | nil => simp [mapGet, mapSet]
  | cons hd tl ih =>
    obtain ⟨k', v'⟩ := hd
    by_cases h : k' = k
    · simp [mapGet, mapSet, h]
    · simp [mapGet, mapSet, h, ih]

theorem mapGet_mapSet_ne (m : List (Nat × Nat)) (k q v : Nat) (h : q ≠ k) :
    mapGet (mapSet m k v) q = mapGet m q := by
  have hkq : (k == q) = false := beq_eq_false_iff_ne.mpr (Ne.symm h)
  induction m with
  | nil => simp [mapGet, mapSet, hkq]
  | cons hd tl ih =>
    obtain ⟨a, b⟩ := hd
    by_cases ha : a = k
    · subst ha
      simp [mapGet, mapSet, hkq]
    · have ha' : (a == k) = false := beq_eq_false_iff_ne.mpr ha
      by_cases hb : a = q
      · subst hb
        simp [mapGet, mapSet, h, ha']
      · have hb' : (a == q) = false := beq_eq_false_iff_ne.mpr hb
        simp [mapGet, mapSet, ha', hb', ih]

theorem mapGet_mapSet_isSome (m : List (Nat × Nat)) (k q v : Nat)
    (h : (mapGet m q).isSome = true) :
    (mapGet (mapSet m k v) q).isSome = true := by
  by_cases hk : q = k
  · subst hk; simp [mapGet_mapSet_self]
  · rw [mapGet_mapSet_ne m k q v hk]; exact h

/-- One step of the `participants.forEach` fold. -/
theorem bumpUnread_cons (s : Nat) (p : Participant) (rest : List Participant)
    (m0 : List (Nat × Nat)) :
    bumpUnread s (p :: rest) m0
      = bumpUnread s rest
          (if p.userId != s then
            mapSet m0 p.userId ((mapGet m0 p.userId).getD 0 + 1)
          else m0) := rfl

theorem bumpUnread_get_untouched (parts : List Participant) (m0 : List (Nat × Nat))
    (s k : Nat) (h : ∀ p ∈ parts, p.userId ≠ s → p.userId ≠ k) :
    mapGet (bumpUnread s parts m0) k = mapGet m0 k := by
  induction parts generalizing m0 with
  | nil => simp [bumpUnread]
  | cons p rest ih =>
    rw [bumpUnread_cons]
    by_cases hp : p.userId = s
    · have hb : (p.userId != s) = false := by simp [bne, hp]
      rw [if_neg (by simp [hb])]
      exact ih m0 (fun q hq => h q (List.mem_cons_of_mem p hq))
    · have hb : (p.userId != s) = true := by simp [bne, hp]
      rw [if_pos hb]
      rw [ih _ (fun q hq => h q (List.mem_cons_of_mem p hq))]
      exact mapGet_mapSet_ne m0 p.userId k _
        (fun hc => h p (List.mem_cons_self p rest) hp hc.symm)

theorem bumpUnread_get_sender (parts : List Participant) (m0 : List (Nat × Nat)) (s : Nat) :
    mapGet (bumpUnread s parts m0) s = mapGet m0 s :=
  bumpUnread_get_untouched parts m0 s s (fun _ _ hne => hne)

theorem bumpUnread_get_mem (parts : List Participant) (m0 : List (Nat × Nat))
    (s : Nat) (p : Participant) (hp : p ∈ parts) (hne : p.userId ≠ s)
    (hnd : (parts.map (fun q => q.userId)).Nodup) :
    mapGet (bumpUnread s parts m0) p.userId
      = some ((mapGet m0 p.userId).getD 0 + 1) := by
  induction parts generalizing m0 with
  | nil => cases hp
  | cons q rest ih =>
    have hnd0 := hnd
    rw [List.map_cons, List.nodup_cons] at hnd0
    obtain ⟨hqrest, hnd'⟩ := hnd0
    rw [bumpUnread_cons]
    rcases List.mem_cons.mp hp with hpq | hprest
    · subst hpq
      have hb : (p.userId != s) = true := by simp [bne, hne]
      rw [if_pos hb]
      have huntouched : ∀ r ∈ rest, r.userId ≠ s → r.userId ≠ p.userId := by
        intro r hr _ hc
        exact hqrest (by rw [← hc]; exact List.mem_map_of_mem _ hr)
      rw [bumpUnread_get_untouched rest _ s p.userId huntouched]
      rw [mapGet_mapSet_self]
    · have hqp : q.userId ≠ p.userId := by
        intro hc
        exact hqrest (by rw [hc]; exact List.mem_map_of_mem _ hprest)
      by_cases hq : q.userId = s
      · have hb : (q.userId != s) = false := by simp [bne, hq]
        rw [if_neg (by simp [hb])]
        exact ih m0 hprest hnd'
      · have hb : (q.userId != s) = true := by simp [bne, hq]
        rw [if_pos hb]
        rw [ih _ hprest hnd']
        rw [mapGet_mapSet_ne _ q.userId p.userId _ (fun hc => hqp hc.symm)]

theorem bumpUnread_isSome (parts : List Participant) (m0 : List (Nat × Nat))
    (s k : Nat) (h : (mapGet m0 k).isSome = true) :
    (mapGet (bumpUnread s parts m0) k).isSome = true := by
  induction parts generalizing m0 with
  | nil => simpa [bumpUnread] using h
  | cons p rest ih =>
    rw [bumpUnread_cons]
    by_cases hp : (p.userId != s) = true
    · rw [if_pos hp]
      exact ih _ (mapGet_mapSet_isSome m0 p.userId k _ h)
    · rw [if_neg (by simpa using hp)]
      exact ih _ h

theorem find?_map_congr {α : Type} (l : List α) (f : α → α) (p : α → Bool)
    (h : ∀ x ∈ l, p (f x) = p x) :
    (l.map f).find? p = (l.find? p).map f := by
  induction l with
  | nil => simp
  | cons x xs ih =>
    simp only [List.map_cons, List.find?_cons]
    rw [h x (List.mem_cons_self x xs)]
    by_cases hx : p x = true
    · simp [hx]
    · simp only [Bool.not_eq_true] at hx
      simp [hx, ih (fun y hy => h y (List.mem_cons_of_mem x hy))]

theorem find?_append_of_none {α : Type} (l1 l2 : List α) (p : α → Bool)
    (h : ∀ a ∈ l1, p a = false) :
    (l1 ++ l2).find? p = l2.find? p := by
  induction l1 with
  | nil => simp
  | cons x xs ih =>
    simp only [List.cons_append, List.find?_cons, h x (List.mem_cons_self x xs)]
    exact ih (fun a ha => h a (List.mem_cons_of_mem x ha))

/-- Newest-first ordering on messages (`sort({createdAt: -1})`). -/
def descOrder (a b : Message) : Prop := b.createdAt ≤ a.createdAt

theorem mem_insertDesc (m a : Message) (l : List Message) :
    a ∈ insertDesc m l ↔ a = m ∨ a ∈ l := by
  induction l with
  | nil => simp [insertDesc]
  | cons x xs ih =>
    simp only [insertDesc]
    by_cases h : Nat.ble x.createdAt m.createdAt = true
    · rw [if_pos h]
      simp [List.mem_cons]
    · rw [if_neg h]
      simp only [List.mem_cons, ih]
      tauto

theorem mem_sortByCreatedAtDesc (a : Message) (l : List Message) :
    a ∈ sortByCreatedAtDesc l ↔ a ∈ l := by
  induction l with
  | nil => simp [sortByCreatedAtDesc]
  | cons x xs ih =>
    simp only [sortByCreatedAtDesc, mem_insertDesc, ih, List.mem_cons]

theorem pairwise_insertDesc (m : Message) (l : List Message)
    (h : l.Pairwise descOrder) : (insertDesc m l).Pairwise descOrder := by
  induction l with
  | nil => simp [insertDesc]
  | cons x xs ih =>
    obtain ⟨hx, hxs⟩ := List.pairwise_cons.mp h
    simp only [insertDesc]
    by_cases hle : Nat.ble x.createdAt m.createdAt = true
    · rw [if_pos hle]
      have hxm : x.createdAt ≤ m.createdAt := by simpa using hle
      refine List.pairwise_cons.mpr ⟨?_, h⟩
      intro y hy
      rcases List.mem_cons.mp hy with hyx | hyxs
      · subst hyx; exact hxm
      · exact Nat.le_trans (hx y hyxs) hxm
    · rw [if_neg hle]
      have hmx : m.createdAt ≤ x.createdAt := by
        have : ¬ x.createdAt ≤ m.createdAt := by simpa using hle
        exact Nat.le_of_lt (Nat.not_le.mp this)
      refine List.pairwise_cons.mpr ⟨?_, ih hxs⟩
      intro y hy
      rcases (mem_insertDesc m y xs).mp hy with hym | hyxs
      · subst hym; exact hmx
      · exact hx y hyxs

theorem pairwise_sortByCreatedAtDesc (l : List Message) :
    (sortByCreatedAtDesc l).Pairwise descOrder := by
  induction l with
  | nil => simp [sortByCreatedAtDesc]
  | cons x xs ih => exact pairwise_insertDesc x _ ih

theorem find?_id_map (convs : List Conversation) (f : Conversation → Conversation)
    (hid : ∀ x, (f x).id = x.id) (convId : Nat) :
    (convs.map f).find? (fun x => x.id == convId)
      = (convs.find? (fun x => x.id == convId)).map f :=
  find?_map_congr convs f _ (fun x _ => by rw [hid x])

theorem postSaveHook_id (m : Message) (x : Conversation) :
    (if x.id == m.conversationId then
        applyLastMessageSync x m.content m.senderId m.createdAt
      else x).id = x.id := by
  by_cases h : x.id == m.conversationId
  · rw [if_pos h]; rfl
  · rw [if_neg h]

theorem writeBack_id (c d x : Conversation) (hd : d.id = c.id) :
    (if x.id == c.id then d else x).id = x.id := by
  by_cases h : (x.id == c.id) = true
  · rw [if_pos h, hd]
    exact (Nat.beq_eq_true_eq _ _ ▸ h).symm
  · rw [if_neg h]

theorem find?_postSaveHook (m : Message) (convs : List Conversation) (convId : Nat) :
    (postSaveHook m convs).find? (fun x => x.id == convId)
      = (convs.find? (fun x => x.id == convId)).map (fun c =>
          if c.id == m.conversationId then
            applyLastMessageSync c m.content m.senderId m.createdAt
          else c) := by
  unfold postSaveHook
  exact find?_id_map convs _ (postSaveHook_id m) convId

theorem find?_writeBack (convs : List Conversation) (c : Conversation)
    (content : String) (senderId now : Nat) (convId : Nat) :
    (writeBackUpdateLastMessage convs c content senderId now).find?
        (fun x => x.id == convId)
      = (convs.find? (fun x => x.id == convId)).map (fun x =>
          if x.id == c.id then c.updateLastMessage content senderId now else x) := by
  unfold writeBackUpdateLastMessage
  exact find?_id_map convs _
    (fun x => writeBack_id c (c.updateLastMessage content senderId now) x rfl) convId

/-- C1: For every message successfully sent to a conversation, the
conversation's `lastMessage` is set to the (trimmed) message content
truncated to 100 characters with the sender's id and the current timestamp,
every other participant's `unreadCount` entry is incremented by exactly 1
(created at 1 if absent, since `(get p || 0) + 1 = 1` then), and the
sender's own `unreadCount` entry is unchanged. -/
theorem c1_send_updates_summary_and_unread
    (st : St) (sender : User) (convId : Nat) (content : String) (msgId now : Nat)
    (c : Conversation)
    (hfind : st.conversations.find? (fun x => x.id == convId) = some c)
    (hpart : c.hasParticipant sender.id = true)
    (hvalid : contentValid content = true)
    (hnd : (c.participants.map (fun p => p.userId)).Nodup) :
    (sendMessageRoute st sender convId content msgId now).1 = .ok msgId
    ∧ ((sendMessageRoute st sender convId content msgId now).2).conversations.find?
        (fun x => x.id == convId)
      = some (c.updateLastMessage (strTrim content) sender.id now)
    ∧ (c.updateLastMessage (strTrim content) sender.id now).lastMessage
      = { content := strTake (strTrim content) 100, senderId := some sender.id,
          timestamp := now }
    ∧ (∀ p ∈ c.participants, p.userId ≠ sender.id →
        mapGet (c.updateLastMessage (strTrim content) sender.id now).unreadCount p.userId
          = some ((mapGet c.unreadCount p.userId).getD 0 + 1))
    ∧ mapGet (c.updateLastMessage (strTrim content) sender.id now).unreadCount sender.id
      = mapGet c.unreadCount sender.id := by
  have hroute :
      sendMessageRoute st sender convId content msgId now
        = (.ok msgId,
           { sendPersistedSt st c sender content msgId now with
             conversations :=
               writeBackUpdateLastMessage
                 (sendPersistedSt st c sender content msgId now).conversations c
                 (strTrim content) sender.id now }) := by
    unfold sendMessageRoute
    rw [hvalid]
    simp only [Bool.not_true, Bool.false_eq_true, if_false]
    rw [hfind]
    simp only [hpart, Bool.not_true, Bool.false_eq_true, if_false]
  refine ⟨by rw [hroute], ?_, rfl, ?_, ?_⟩
  · rw [hroute]
    show (writeBackUpdateLastMessage
        (sendPersistedSt st c sender content msgId now).conversations c
        (strTrim content) sender.id now).find? (fun x => x.id == convId) = _
    rw [find?_writeBack]
    show ((postSaveHook
        (newMessage c.id sender.id (sender.firstName ++ " " ++ sender.lastName)
          content msgId now) st.conversations).find? (fun x => x.id == convId)).map _ = _
    rw [find?_postSaveHook, hfind]
    simp [newMessage, applyLastMessageSync]
  · intro p hp hne
    show mapGet (bumpUnread sender.id c.participants c.unreadCount) p.userId = _
    exact bumpUnread_get_mem c.participants c.unreadCount sender.id p hp hne hnd
  · show mapGet (bumpUnread sender.id c.participants c.unreadCount) sender.id = _
    exact bumpUnread_get_sender c.participants c.unreadCount sender.id

def uAx : User := { id := 1, firstName := "Alice", lastName := "Martin", isActive := true }

def uBx : User := { id := 2, firstName := "Bob", lastName := "Durand", isActive := true }

def c1conv : Conversation :=
  { id := 1
    participants := [{ userId := 1, userName := "Alice Martin" },
                     { userId := 2, userName := "Bob Durand" }]
    serviceId := none
    serviceTitle := none
    lastMessage := { content := "", senderId := none, timestamp := 0 }
    isActive := true
    unreadCount := [(1, 0), (2, 0)]
    updatedAt := 0 }

def c1st : St :=
  { users := [uAx, uBx], services := [], conversations := [c1conv], messages := [] }

/-- Witness for C1 at a concrete send. -/
theorem c1_witness :
    (sendMessageRoute c1st uAx 1 "Bonjour" 5 9).1 = .ok 5
    ∧ mapGet (c1conv.updateLastMessage (strTrim "Bonjour") uAx.id 9).unreadCount uAx.id
      = mapGet c1conv.unreadCount uAx.id :=
  ⟨(c1_send_updates_summary_and_unread c1st uAx 1 "Bonjour" 5 9 c1conv
      (by decide) (by decide) (by decide) (by decide)).1,
   (c1_send_updates_summary_and_unread c1st uAx 1 "Bonjour" 5 9 c1conv
      (by decide) (by decide) (by decide) (by decide)).2.2.2.2⟩

/-- C3: after `PUT /conversations/:id/read` by a participant, that user's
`unreadCount` entry is 0, no message in the conversation sent by a different
user remains unread, the reader's own messages are untouched by the bulk
update, and other users' `unreadCount` entries are unchanged. -/
theorem c3_mark_conversation_read
    (st : St) (uid convId now : Nat) (c : Conversation)
    (hfind : st.conversations.find? (fun x => x.id == convId) = some c)
    (hpart : c.hasParticipant uid = true) :
    (markReadRoute st uid convId now).1 = .ok ()
    ∧ ((markReadRoute st uid convId now).2).conversations.find? (fun x => x.id == convId)
        = some (c.markAsRead uid now)
    ∧ mapGet (c.markAsRead uid now).unreadCount uid = some 0
    ∧ (∀ k, k ≠ uid → mapGet (c.markAsRead uid now).unreadCount k = mapGet c.unreadCount k)
    ∧ ((markReadRoute st uid convId now).2).messages
        = st.messages.map (markMsgRead convId uid now)
    ∧ (∀ m ∈ ((markReadRoute st uid convId now).2).messages,
        m.conversationId = convId → m.senderId ≠ uid → m.isRead = true)
    ∧ (∀ m : Message, m.senderId = uid → markMsgRead convId uid now m = m) := by
  have hroute :
      markReadRoute st uid convId now
        = (.ok (),
           { st with
             conversations :=
               st.conversations.map (fun x =>
                 if x.id == c.id then c.markAsRead uid now else x)
             messages := markConversationAsRead st.messages convId uid now }) := by
    unfold markReadRoute
    rw [hfind]
    simp only [hpart, Bool.not_true, Bool.false_eq_true, if_false]
  refine ⟨by rw [hroute], ?_, ?_, ?_, by rw [hroute]; rfl, ?_, ?_⟩
  · rw [hroute]
    show (st.conversations.map fun x =>
        if x.id == c.id then c.markAsRead uid now else x).find? (fun x => x.id == convId) = _
    rw [find?_id_map st.conversations _
      (fun x => writeBack_id c (c.markAsRead uid now) x rfl) convId]
    rw [hfind]
    simp [Conversation.markAsRead]
  · show mapGet (mapSet c.unreadCount uid 0) uid = some 0
    exact mapGet_mapSet_self c.unreadCount uid 0
  · intro k hk
    show mapGet (mapSet c.unreadCount uid 0) k = mapGet c.unreadCount k
    exact mapGet_mapSet_ne c.unreadCount uid k 0 hk
  · rw [hroute]
    intro m hm hconv hsender
    show m.isRead = true
    obtain ⟨m0, hm0, hmm⟩ := List.mem_map.mp hm
    subst hmm
    unfold markMsgRead
    unfold markMsgRead at hconv hsender
    by_cases hg : (m0.conversationId == convId && m0.senderId != uid && !m0.isRead) = true
    · rw [if_pos hg]
    · rw [if_neg hg]
      rw [if_neg hg] at hconv hsender
      have hc : (m0.conversationId == convId) = true := beq_iff_eq.mpr hconv
      have hs : (m0.senderId != uid) = true := by simp [bne, hsender]
      simp only [hc, hs, Bool.true_and] at hg
      simpa using hg
  · intro m hm
    unfold markMsgRead
    have hs : (m.senderId != uid) = false := by simp [bne, hm]
    simp [hs]

def c3conv : Conversation :=
  { id := 4
    participants := [{ userId := 1, userName := "Alice Martin" },
                     { userId := 2, userName := "Bob Durand" }]
    serviceId := none
    serviceTitle := none
    lastMessage := { content := "Salut", senderId := some 1, timestamp := 3 }
    isActive := true
    unreadCount := [(1, 0), (2, 1)]
    updatedAt := 3 }

def c3msg : Message :=
  { id := 7, conversationId := 4, senderId := 1, senderName := "Alice Martin"
    content := "Salut", messageType := "text", attachments := [], isRead := false
    readAt := none, isEdited := false, editedAt := none, replyTo := none, createdAt := 3 }

def c3st : St :=
  { users := [uAx, uBx], services := [], conversations := [c3conv], messages := [c3msg] }

/-- Witness for C3 at a concrete mark-read. -/
theorem c3_witness :
    (markReadRoute c3st 2 4 8).1 = .ok ()
    ∧ mapGet (c3conv.markAsRead 2 8).unreadCount 2 = some 0 :=
  ⟨(c3_mark_conversation_read c3st 2 4 8 c3conv (by decide) (by decide)).1,
   (c3_mark_conversation_read c3st 2 4 8 c3conv (by decide) (by decide)).2.2.1⟩

/-- C7 (amended): self-conversation is rejected with a plain 400 Bad Request
(the status the repo uses for validation-style failures), not the 409
Conflict status it reserves for uniqueness conflicts, and the store is
left unchanged (no conversation and no message is created). -/
theorem c7_self_conversation_rejected
    (st : St) (requester : User) (sid : Option Nat) (msg : String)
    (cid mid now : Nat) (hv : contentValid msg = true) :
    createConvRoute st requester requester.id sid msg cid mid now
      = (.error (.badRequest []), st) := by
  unfold createConvRoute
  rw [hv]
  simp

def c7st : St := { users := [uAx, uBx], services := [], conversations := [], messages := [] }

/-- C7 counterexample: at a concrete self-conversation attempt the error is
the 400 Bad Request kind, which is not the Conflict kind the claim names
(the repo's 409 is used for duplicate-phone conflicts instead). -/
theorem c7_counterexample :
    createConvRoute c7st uAx uAx.id none "Salut" 10 11 5 = (.error (.badRequest []), c7st)
    ∧ ErrKind.badRequest [] ≠ ErrKind.conflict := by
  decide

/-- Witness for the amended C7. -/
theorem c7_witness :
    createConvRoute c7st uBx uBx.id none "Coucou" 20 21 6 = (.error (.badRequest []), c7st) :=
  c7_self_conversation_rejected c7st uBx none "Coucou" 20 21 6 (by decide)

/-- C10: for a user with no unread messages (in particular one who belongs
to no conversation at all), the two-stage aggregation returns the empty
list and the route maps it to the integer 0. -/
theorem c10_unread_total_zero (st : St) (uid : Nat)
    (h : ∀ m ∈ st.messages, unreadMatch st.conversations uid m = false) :
    getUnreadCount st.conversations st.messages uid = []
    ∧ unreadCountRoute st uid = 0 := by
  have hfilter : st.messages.filter (unreadMatch st.conversations uid) = [] := by
    rw [List.filter_eq_nil_iff]
    intro a ha
    simp [h a ha]
  have hagg : getUnreadCount st.conversations st.messages uid = [] := by
    unfold getUnreadCount
    rw [hfilter]
    rfl
  exact ⟨hagg, by unfold unreadCountRoute; rw [hagg]⟩

def c10conv : Conversation :=
  { id := 1
    participants := [{ userId := 1, userName := "Alice Martin" },
                     { userId := 2, userName := "Bob Durand" }]
    serviceId := none
    serviceTitle := none
    lastMessage := { content := "Salut", senderId := some 1, timestamp := 3 }
    isActive := true
    unreadCount := [(1, 0), (2, 1)]
    updatedAt := 3 }

def c10msg : Message :=
  { id := 7, conversationId := 1, senderId := 1, senderName := "Alice Martin"
    content := "Salut", messageType := "text", attachments := [], isRead := false
    readAt := none, isEdited := false, editedAt := none, replyTo := none, createdAt := 3 }

def c10st : St :=
  { users := [uAx, uBx], services := [], conversations := [c10conv], messages := [c10msg] }

/-- Witness for C10: user 3 participates in no conversation, even though an
unread message between users 1 and 2 exists; the total is 0. -/
theorem c10_witness :
    getUnreadCount c10st.conversations c10st.messages 3 = []
    ∧ unreadCountRoute c10st 3 = 0 :=
  c10_unread_total_zero c10st 3 (by decide)

def c4conv : Conversation :=
  { id := 1
    participants := [{ userId := 1, userName := "Alice Martin" },
                     { userId := 2, userName := "Bob Durand" }]
    serviceId := none
    serviceTitle := none
    lastMessage := { content := "", senderId := none, timestamp := 0 }
    isActive := true
    unreadCount := [(1, 0), (2, 0)]
    updatedAt := 0 }

def c4st : St :=
  { users := [uAx, uBx], services := [], conversations := [c4conv], messages := [] }

def c4outsider : User :=
  { id := 3, firstName := "Chris", lastName := "Petit", isActive := true }

/-- C4 counterexample: a non-participant (user 3) requesting an existing
active conversation via `GET /conversations/:id` receives the Forbidden
(403) kind, not NotFound — so the claim "never ForbiddenError" is false. -/
theorem c4_counterexample :
    (getConversationRoute c4st 3 1 7).1 = .error .forbidden
    ∧ ErrKind.forbidden ≠ ErrKind.notFound := by
  decide

/-- C4 (amended): for a non-participant, listing messages, sending a
message, marking read, and conversation-restricted search all fail with
NotFound; but `GET /conversations/:id` leaks existence: it returns
Forbidden when the conversation exists and is active (NotFound only when
it is missing or inactive). -/
theorem c4_non_participant_errors
    (st : St) (requester : User) (convId : Nat) (c : Conversation)
    (page limit now msgId : Nat) (content q : String)
    (hfind : st.conversations.find? (fun x => x.id == convId) = some c)
    (hnp : c.hasParticipant requester.id = false)
    (hpage : 1 ≤ page) (hlimit : 1 ≤ limit) (hlimit2 : limit ≤ 100)
    (hcontent : contentValid content = true)
    (hq : 1 ≤ (strTrim q).length) :
    (getMessagesRoute st requester.id convId page limit now).1 = .error .notFound
    ∧ (sendMessageRoute st requester convId content msgId now).1 = .error .notFound
    ∧ (markReadRoute st requester.id convId now).1 = .error .notFound
    ∧ (searchRoute st requester.id q (some convId)).1 = .error .notFound
    ∧ (getConversationRoute st requester.id convId now).1
        = (if c.isActive then Except.error ErrKind.forbidden
           else Except.error ErrKind.notFound) := by
  refine ⟨?_, ?_, ?_, ?_, ?_⟩
  · unfold getMessagesRoute
    rw [if_neg (by omega)]
    rw [hfind]
    simp [hnp]
  · unfold sendMessageRoute
    rw [hcontent]
    simp only [Bool.not_true, Bool.false_eq_true, if_false]
    rw [hfind]
    simp [hnp]
  · unfold markReadRoute
    rw [hfind]
    simp [hnp]
  · unfold searchRoute
    have hq0 : ((strTrim q).length == 0) = false := by
      have : (strTrim q).length ≠ 0 := by omega
      simpa using this
    rw [hq0]
    simp only [Bool.false_eq_true, if_false]
    rw [hfind]
    simp [hnp]
  · unfold getConversationRoute
    rw [hfind]
    by_cases hact : c.isActive = true
    · simp [hact, hnp]
    · simp only [Bool.not_eq_true] at hact
      simp [hact]

/-- Witness for the amended C4. -/
theorem c4_witness :
    (markReadRoute c4st 3 1 7).1 = .error .notFound
    ∧ (getConversationRoute c4st 3 1 7).1
        = (if c4conv.isActive then Except.error ErrKind.forbidden
           else Except.error ErrKind.notFound) :=
  ⟨(c4_non_participant_errors c4st c4outsider 1 c4conv 1 50 7 9 "Bonjour" "salut"
      (by decide) (by decide) (by decide) (by decide) (by decide) (by decide)
      (by decide)).2.2.1,
   (c4_non_participant_errors c4st c4outsider 1 c4conv 1 50 7 9 "Bonjour" "salut"
      (by decide) (by decide) (by decide) (by decide) (by decide) (by decide)
      (by decide)).2.2.2.2⟩

def c8msg : Message :=
  { id := 1, conversationId := 1, senderId := 1, senderName := "Alice Martin"
    content := "abc", messageType := "text", attachments := [], isRead := false
    readAt := none, isEdited := false, editedAt := none, replyTo := none, createdAt := 1 }

def c8msgs : List Message := [c8msg]

/-- C8 counterexample: with query "a.c" the search returns the message whose
content is "abc" (the `$regex` `.` wildcard matches the `b`), yet "abc" does
not contain "a.c" as a case-insensitive substring — so "each result's
content contains the query as a substring" is false. -/
theorem c8_counterexample :
    c8msg ∈ searchInConversation c8msgs 1 "a.c"
    ∧ containsCI c8msg.content "a.c" = false := by
  decide

/-- C8 (amended): `searchInConversation` returns at most 20 results (the
source limit is in fact 10), each belonging to the conversation and
matching the query interpreted as a case-insensitive regular expression
(not as a literal substring), ordered newest first. -/
theorem c8_search_regex_capped_ordered (msgs : List Message) (convId : Nat) (q : String) :
    (searchInConversation msgs convId q).length ≤ 20
    ∧ (∀ m ∈ searchInConversation msgs convId q,
        m.conversationId = convId ∧ regexMatchI q m.content = true)
    ∧ (searchInConversation msgs convId q).Pairwise descOrder := by
  unfold searchInConversation
  refine ⟨?_, ?_, ?_⟩
  · exact le_trans (List.length_take_le _ _) (by norm_num)
  · intro m hm
    have hm1 : m ∈ sortByCreatedAtDesc
        (msgs.filter (fun m => m.conversationId == convId && regexMatchI q m.content)) :=
      (List.take_sublist _ _).subset hm
    have hm2 := (mem_sortByCreatedAtDesc m _).mp hm1
    have hm3 := (List.mem_filter.mp hm2).2
    have hm4 := Bool.and_eq_true_iff.mp hm3
    exact ⟨beq_iff_eq.mp hm4.1, hm4.2⟩
  · exact (pairwise_sortByCreatedAtDesc _).sublist (List.take_sublist _ _)

/-- Witness for the amended C8 at a concrete search. -/
theorem c8_witness :
    c8msg.conversationId = 1 ∧ regexMatchI "a.c" c8msg.content = true :=
  (c8_search_regex_capped_ordered c8msgs 1 "a.c").2.1 c8msg (by decide)

def c9conv : Conversation :=
  { id := 1
    participants := [{ userId := 1, userName := "Alice Martin" },
                     { userId := 2, userName := "Bob Durand" }]
    serviceId := none
    serviceTitle := none
    lastMessage := { content := "new", senderId := some 2, timestamp := 5 }
    isActive := true
    unreadCount := [(1, 1), (2, 0)]
    updatedAt := 5 }

def c9msg : Message :=
  { id := 1, conversationId := 1, senderId := 1, senderName := "Alice Martin"
    content := "old", messageType := "text", attachments := [], isRead := true
    readAt := some 2, isEdited := false, editedAt := none, replyTo := none, createdAt := 1 }

def c9st : St :=
  { users := [uAx, uBx], services := [], conversations := [c9conv], messages := [c9msg] }

/-- C9 counterexample: `editContent` on an old message — a non-append
operation — re-saves the document, the post-save hook fires, and the
conversation summary is overwritten with the old message's data (content
"edited", timestamp regressing from 5 to the message's createdAt 1).  So
the sync is not triggered only by appends. -/
theorem c9_counterexample :
    c9st.conversations.map (fun c => (c.lastMessage.content, c.lastMessage.timestamp))
      = [("new", 5)]
    ∧ (editContentOp c9st c9msg "edited" 9).conversations.map
        (fun c => (c.lastMessage.content, c.lastMessage.timestamp))
      = [("edited", 1)] := by
  decide

/-- C9 (amended): the last-message sync runs after every message save, not
only after appends: `editContent` and `markAsRead` re-saves overwrite the
owning conversation's summary with the saved message's content/sender/
createdAt; and per append in the send flow the summary is written twice —
once by the post-save hook and once more (overwriting it, with truncation
and a fresh timestamp) by `updateLastMessage`. -/
theorem c9_sync_fires_on_every_save :
    (∀ (st : St) (m : Message) (newContent : String) (now : Nat) (c : Conversation),
       st.conversations.find? (fun x => x.id == m.conversationId) = some c →
       ((editContentOp st m newContent now).conversations.find?
           (fun x => x.id == m.conversationId))
         = some (applyLastMessageSync c newContent m.senderId m.createdAt))
    ∧ (∀ (st : St) (m : Message) (now : Nat) (c : Conversation),
       st.conversations.find? (fun x => x.id == m.conversationId) = some c →
       ((markAsReadOp st m now).conversations.find?
           (fun x => x.id == m.conversationId))
         = some (applyLastMessageSync c m.content m.senderId m.createdAt))
    ∧ (∀ (st : St) (sender : User) (convId : Nat) (content : String)
       (msgId now : Nat) (c : Conversation),
       st.conversations.find? (fun x => x.id == convId) = some c →
       c.hasParticipant sender.id = true → contentValid content = true →
       ((sendPersistedSt st c sender content msgId now).conversations.find?
           (fun x => x.id == convId))
         = some (applyLastMessageSync c (strTrim content) sender.id now)
       ∧ ((sendMessageRoute st sender convId content msgId now).2).conversations.find?
           (fun x => x.id == convId)
         = some (c.updateLastMessage (strTrim content) sender.id now)) := by
  refine ⟨?_, ?_, ?_⟩
  · intro st m newContent now c hfind
    have hc := List.find?_some hfind
    show (postSaveHook (m.editContent newContent now) st.conversations).find?
        (fun x => x.id == m.conversationId) = _
    rw [find?_postSaveHook, hfind]
    simp only [Option.map_some']
    rw [if_pos (show ((c.id == (m.editContent newContent now).conversationId) = true) from hc)]
    rfl
  · intro st m now c hfind
    have hc := List.find?_some hfind
    show (postSaveHook (m.markAsRead now) st.conversations).find?
        (fun x => x.id == m.conversationId) = _
    rw [find?_postSaveHook, hfind]
    simp only [Option.map_some']
    rw [if_pos (show ((c.id == (m.markAsRead now).conversationId) = true) from hc)]
    rfl
  · intro st sender convId content msgId now c hfind hpart hvalid
    constructor
    · show (postSaveHook
          (newMessage c.id sender.id (sender.firstName ++ " " ++ sender.lastName)
            content msgId now) st.conversations).find? (fun x => x.id == convId) = _
      rw [find?_postSaveHook, hfind]
      simp [newMessage, applyLastMessageSync]
    · have hroute :
          sendMessageRoute st sender convId content msgId now
            = (.ok msgId,
               { sendPersistedSt st c sender content msgId now with
                 conversations :=
                   writeBackUpdateLastMessage
                     (sendPersistedSt st c sender content msgId now).conversations c
                     (strTrim content) sender.id now }) := by
        unfold sendMessageRoute
        rw [hvalid]
        simp only [Bool.not_true, Bool.false_eq_true, if_false]
        rw [hfind]
        simp only [hpart, Bool.not_true, Bool.false_eq_true, if_false]
      rw [hroute]
      show (writeBackUpdateLastMessage
          (sendPersistedSt st c sender content msgId now).conversations c
          (strTrim content) sender.id now).find? (fun x => x.id == convId) = _
      rw [find?_writeBack]
      show ((postSaveHook
          (newMessage c.id sender.id (sender.firstName ++ " " ++ sender.lastName)
            content msgId now) st.conversations).find? (fun x => x.id == convId)).map _ = _
      rw [find?_postSaveHook, hfind]
      simp [newMessage, applyLastMessageSync]

/-- Witness for the amended C9 at a concrete edit. -/
theorem c9_witness :
    (editContentOp c9st c9msg "edited" 9).conversations.find?
        (fun x => x.id == c9msg.conversationId)
      = some (applyLastMessageSync c9conv "edited" c9msg.senderId c9msg.createdAt) :=
  c9_sync_fires_on_every_save.1 c9st c9msg "edited" 9 c9conv (by decide)

/-- C6: a send (or conversation creation) whose trimmed content length is
outside [1,1000] is rejected with a 400 validation error naming the
content-carrying field, and no message record is stored (the state is
unchanged); every message stored by a successful send carries the trimmed
content, whose length is in [1,1000]. -/
theorem c6_content_length_validation :
    (∀ (st : St) (sender : User) (convId : Nat) (content : String) (msgId now : Nat),
       contentValid content = false →
       sendMessageRoute st sender convId content msgId now
         = (.error (.badRequest ["content"]), st))
    ∧ (∀ (st : St) (requester : User) (pid : Nat) (sid : Option Nat) (msg : String)
       (cid mid now : Nat),
       contentValid msg = false →
       createConvRoute st requester pid sid msg cid mid now
         = (.error (.badRequest ["initialMessage"]), st))
    ∧ (∀ (st : St) (sender : User) (convId : Nat) (content : String)
       (msgId now r : Nat),
       (sendMessageRoute st sender convId content msgId now).1 = .ok r →
       ∃ m : Message,
         (sendMessageRoute st sender convId content msgId now).2.messages
           = st.messages ++ [m]
         ∧ m.content = strTrim content
         ∧ 1 ≤ m.content.length ∧ m.content.length ≤ 1000) := by
  refine ⟨?_, ?_, ?_⟩
  · intro st sender convId content msgId now h
    unfold sendMessageRoute
    simp [h]
  · intro st requester pid sid msg cid mid now h
    unfold createConvRoute
    simp [h]
  · intro st sender convId content msgId now r hok
    unfold sendMessageRoute at hok ⊢
    by_cases hv : contentValid content = true
    · rw [hv] at hok ⊢
      simp only [Bool.not_true, Bool.false_eq_true, if_false] at hok ⊢
      cases hfind : st.conversations.find? (fun c => c.id == convId) with
      | none => rw [hfind] at hok; simp at hok
      | some c =>
        rw [hfind] at hok
        by_cases hpart : c.hasParticipant sender.id = true
        · simp only [hpart, Bool.not_true, Bool.false_eq_true, if_false] at hok ⊢
          refine ⟨newMessage c.id sender.id
              (sender.firstName ++ " " ++ sender.lastName) content msgId now,
            rfl, rfl, ?_, ?_⟩
          · have hb := (Bool.and_eq_true_iff.mp hv).1
            exact Nat.le_of_ble_eq_true hb
          · have hb := (Bool.and_eq_true_iff.mp hv).2
            exact Nat.le_of_ble_eq_true hb
        · have hp' : c.hasParticipant sender.id = false := by simpa using hpart
          simp [hp'] at hok
    · have hv' : contentValid content = false := by simpa using hv
      rw [hv'] at hok
      simp at hok

def c6st : St :=
  { users := [uAx, uBx], services := [], conversations := [], messages := [] }

/-- Witness for C6: whitespace-only content (trimmed length 0) is rejected
with a 400 naming the content field and leaves the store unchanged. -/
theorem c6_witness :
    sendMessageRoute c6st uAx 1 "   " 5 9 = (.error (.badRequest ["content"]), c6st) :=
  c6_content_length_validation.1 c6st uAx 1 "   " 5 9 (by decide)

/-- Conversation states reachable through the lifecycle operations the data
model exposes: creation, the send-path summary update (`updateLastMessage`),
the post-save sync, and conversation-level `markAsRead`. -/
inductive ReachableConv : Conversation → Prop where
  | created (u1 u2 : User) (sid : Option Nat) (stitle : Option String) (cid now : Nat) :
      ReachableConv (createConversation u1 u2 sid stitle cid now)
  | send (c : Conversation) (content : String) (senderId now : Nat) :
      ReachableConv c → ReachableConv (c.updateLastMessage content senderId now)
  | sync (c : Conversation) (content : String) (senderId ts : Nat) :
      ReachableConv c → ReachableConv (applyLastMessageSync c content senderId ts)
  | read (c : Conversation) (uid now : Nat) :
      ReachableConv c → ReachableConv (c.markAsRead uid now)

/-- C5: every reachable conversation state has exactly 2 participants and an
`unreadCount` entry for every participant; and under a monotone clock no
lifecycle operation decreases `lastMessage.timestamp` (`markAsRead` leaves
it unchanged). -/
theorem c5_conversation_invariants :
    (∀ c : Conversation, ReachableConv c →
       c.participants.length = 2
       ∧ ∀ p ∈ c.participants, (mapGet c.unreadCount p.userId).isSome = true)
    ∧ (∀ (c : Conversation) (content : String) (senderId now : Nat),
       c.lastMessage.timestamp ≤ now →
       c.lastMessage.timestamp
         ≤ (c.updateLastMessage content senderId now).lastMessage.timestamp)
    ∧ (∀ (c : Conversation) (content : String) (senderId ts : Nat),
       c.lastMessage.timestamp ≤ ts →
       c.lastMessage.timestamp
         ≤ (applyLastMessageSync c content senderId ts).lastMessage.timestamp)
    ∧ (∀ (c : Conversation) (uid now : Nat),
       (c.markAsRead uid now).lastMessage.timestamp = c.lastMessage.timestamp) := by
  refine ⟨?_, ?_, ?_, ?_⟩
  · intro c hr
    induction hr with
    | created u1 u2 sid stitle cid now =>
      refine ⟨rfl, ?_⟩
      intro p hp
      rcases List.mem_cons.mp hp with h1 | hp'
      · subst h1
        show (mapGet (mapSet (mapSet [] u1.id 0) u2.id 0) u1.id).isSome = true
        exact mapGet_mapSet_isSome _ u2.id u1.id 0
          (by rw [mapGet_mapSet_self]; rfl)
      · rcases List.mem_cons.mp hp' with h2 | hnil
        · subst h2
          show (mapGet (mapSet (mapSet [] u1.id 0) u2.id 0) u2.id).isSome = true
          rw [mapGet_mapSet_self]
          rfl
        · cases hnil
    | send c content senderId now hr ih =>
      refine ⟨ih.1, ?_⟩
      intro p hp
      show (mapGet (bumpUnread senderId c.participants c.unreadCount) p.userId).isSome = true
      exact bumpUnread_isSome c.participants c.unreadCount senderId p.userId (ih.2 p hp)
    | sync c content senderId ts hr ih =>
      exact ⟨ih.1, fun p hp => ih.2 p hp⟩
    | read c uid now hr ih =>
      refine ⟨ih.1, ?_⟩
      intro p hp
      show (mapGet (mapSet c.unreadCount uid 0) p.userId).isSome = true
      exact mapGet_mapSet_isSome c.unreadCount uid p.userId 0 (ih.2 p hp)
  · intro c content senderId now h
    exact h
  · intro c content senderId ts h
    exact h
  · intro c uid now
    rfl

/-- Witness for C5 at a freshly created conversation. -/
theorem c5_witness :
    (createConversation uAx uBx none none 1 0).participants.length = 2
    ∧ ((createConversation uAx uBx none none 1 0).markAsRead 2 3).lastMessage.timestamp
      = (createConversation uAx uBx none none 1 0).lastMessage.timestamp :=
  ⟨(c5_conversation_invariants.1 _ (ReachableConv.created uAx uBx none none 1 0)).1,
   c5_conversation_invariants.2.2.2 _ 2 3⟩

/-- The find predicate of `findBetweenUsers` is unaffected by the post-save
hook's summary update. -/
theorem pb_hookFn (m : Message) (u v : Nat) (x : Conversation) :
    ((if x.id == m.conversationId then
        applyLastMessageSync x m.content m.senderId m.createdAt
      else x).hasParticipant u
     && (if x.id == m.conversationId then
          applyLastMessageSync x m.content m.senderId m.createdAt
        else x).hasParticipant v
     && (if x.id == m.conversationId then
          applyLastMessageSync x m.content m.senderId m.createdAt
        else x).isActive)
    = (x.hasParticipant u && x.hasParticipant v && x.isActive) := by
  by_cases h : (x.id == m.conversationId) = true
  · rw [if_pos h]; rfl
  · rw [if_neg h]

/-- C2: `getOrCreateConversation` is idempotent — two successive calls with
the same (requester, participant) pair return the same conversation id —
and `findBetweenUsers` treats its two user arguments as an unordered pair. -/
theorem c2_get_or_create_idempotent_unordered
    (st : St) (requester otherUser : User) (sid2 : Option Nat)
    (msg1 msg2 : String) (cid1 mid1 t1 cid2 mid2 t2 : Nat)
    (hne : otherUser.id ≠ requester.id)
    (huser : st.users.find? (fun u => u.id == otherUser.id) = some otherUser)
    (hact : otherUser.isActive = true)
    (hv1 : contentValid msg1 = true) (hv2 : contentValid msg2 = true)
    (hids : (st.conversations.map (fun c => c.id)).Nodup)
    (hfresh : cid1 ∉ st.conversations.map (fun c => c.id)) :
    (∃ cid,
      (createConvRoute st requester otherUser.id none msg1 cid1 mid1 t1).1 = .ok cid
      ∧ (createConvRoute
           (createConvRoute st requester otherUser.id none msg1 cid1 mid1 t1).2
           requester otherUser.id sid2 msg2 cid2 mid2 t2).1 = .ok cid)
    ∧ (∀ (convs : List Conversation) (u v : Nat),
        findBetweenUsers convs u v = findBetweenUsers convs v u) := by
  have hbeq : (otherUser.id == requester.id) = false := beq_eq_false_iff_ne.mpr hne
  constructor
  · cases hfb : findBetweenUsers st.conversations requester.id otherUser.id with
    | some conv =>
      -- first call reuses the existing conversation
      have hfb' : st.conversations.find?
          (fun c => c.hasParticipant requester.id && c.hasParticipant otherUser.id
            && c.isActive) = some conv := hfb
      have hconvmem : conv ∈ st.conversations := List.mem_of_find?_eq_some hfb'
      have hr1 : createConvRoute st requester otherUser.id none msg1 cid1 mid1 t1
          = finishCreateConv st conv requester msg1 mid1 t1 := by
        unfold createConvRoute
        simp only [hv1, Bool.not_true, Bool.false_eq_true, if_false, hbeq, huser,
          hact, hfb]
      have hfb2 : findBetweenUsers
          (writeBackUpdateLastMessage
            (postSaveHook
              (newMessage conv.id requester.id
                (requester.firstName ++ " " ++ requester.lastName) msg1 mid1 t1)
              st.conversations)
            conv (strTrim msg1) requester.id t1)
          requester.id otherUser.id
          = some (conv.updateLastMessage (strTrim msg1) requester.id t1) := by
        unfold findBetweenUsers writeBackUpdateLastMessage postSaveHook
        rw [List.map_map]
        rw [find?_map_congr _ _ _ ?hcongr]
        case hcongr =>
          intro x hx
          simp only [Function.comp]
          by_cases hxid : (x.id == conv.id) = true
          · have hxc : x = conv :=
              List.inj_on_of_nodup_map hids hx hconvmem (beq_iff_eq.mp hxid)
            subst hxc
            rw [if_pos (by rw [postSaveHook_id]; exact hxid)]
            rfl
          · rw [if_neg (by rw [postSaveHook_id]; exact hxid)]
            rw [pb_hookFn]
        rw [hfb']
        simp only [Option.map_some', Function.comp_apply]
        rw [if_pos (by rw [postSaveHook_id]; exact beq_self_eq_true _)]
      refine ⟨conv.id, by rw [hr1]; rfl, ?_⟩
      obtain ⟨stA, hstA⟩ :
          ∃ s, (createConvRoute st requester otherUser.id none msg1 cid1 mid1 t1).2 = s :=
        ⟨_, rfl⟩
      have husersA : stA.users = st.users := by rw [← hstA, hr1]; rfl
      have hconvsA : stA.conversations
          = writeBackUpdateLastMessage
              (postSaveHook
                (newMessage conv.id requester.id
                  (requester.firstName ++ " " ++ requester.lastName) msg1 mid1 t1)
                st.conversations)
              conv (strTrim msg1) requester.id t1 := by
        rw [← hstA, hr1]; rfl
      rw [hstA]
      unfold createConvRoute
      rw [husersA]
      simp only [hv2, Bool.not_true, Bool.false_eq_true, if_false, hbeq, huser, hact]
      rw [hconvsA, hfb2]
      rfl
    | none =>
      -- first call creates a fresh conversation
      have hfb' : st.conversations.find?
          (fun c => c.hasParticipant requester.id && c.hasParticipant otherUser.id
            && c.isActive) = none := hfb
      have hallfalse := List.find?_eq_none.mp hfb'
      have hr1 : createConvRoute st requester otherUser.id none msg1 cid1 mid1 t1
          = finishCreateConv
              { st with conversations := st.conversations
                  ++ [createConversation requester otherUser none none cid1 t1] }
              (createConversation requester otherUser none none cid1 t1)
              requester msg1 mid1 t1 := by
        unfold createConvRoute
        simp only [hv1, Bool.not_true, Bool.false_eq_true, if_false, hbeq, huser,
          hact, hfb]
      have hfb2 : findBetweenUsers
          (writeBackUpdateLastMessage
            (postSaveHook
              (newMessage (createConversation requester otherUser none none cid1 t1).id
                requester.id (requester.firstName ++ " " ++ requester.lastName)
                msg1 mid1 t1)
              (st.conversations
                ++ [createConversation requester otherUser none none cid1 t1]))
            (createConversation requester otherUser none none cid1 t1)
            (strTrim msg1) requester.id t1)
          requester.id otherUser.id
          = some ((createConversation requester otherUser none none cid1 t1).updateLastMessage
              (strTrim msg1) requester.id t1) := by
        unfold findBetweenUsers writeBackUpdateLastMessage postSaveHook
        rw [List.map_map, List.map_append]
        rw [find?_append_of_none _ _ _ ?hfalse]
        case hfalse =>
          intro a ha
          obtain ⟨x, hx, hax⟩ := List.mem_map.mp ha
          subst hax
          simp only [Function.comp]
          have hxid : (x.id == (createConversation requester otherUser none none cid1 t1).id)
              = false := by
            have hxne : x.id ≠ cid1 := by
              intro hc
              exact hfresh (hc ▸ List.mem_map_of_mem (fun c => c.id) hx)
            exact beq_eq_false_iff_ne.mpr hxne
          rw [if_neg (by rw [postSaveHook_id]; simp [hxid])]
          rw [pb_hookFn]
          simpa using hallfalse x hx
        simp only [List.map_cons, List.map_nil, Function.comp]
        rw [if_pos (by rw [postSaveHook_id]; exact beq_self_eq_true _)]
        have hpb : (((createConversation requester otherUser none none cid1 t1).updateLastMessage
              (strTrim msg1) requester.id t1).hasParticipant requester.id
            && ((createConversation requester otherUser none none cid1 t1).updateLastMessage
              (strTrim msg1) requester.id t1).hasParticipant otherUser.id
            && ((createConversation requester otherUser none none cid1 t1).updateLastMessage
              (strTrim msg1) requester.id t1).isActive) = true := by
          simp [Conversation.updateLastMessage, Conversation.hasParticipant,
            createConversation]
        simp only [List.find?_cons, hpb]
      refine ⟨cid1, by rw [hr1]; rfl, ?_⟩
      obtain ⟨stA, hstA⟩ :
          ∃ s, (createConvRoute st requester otherUser.id none msg1 cid1 mid1 t1).2 = s :=
        ⟨_, rfl⟩
      have husersA : stA.users = st.users := by rw [← hstA, hr1]; rfl
      have hconvsA : stA.conversations
          = writeBackUpdateLastMessage
              (postSaveHook
                (newMessage (createConversation requester otherUser none none cid1 t1).id
                  requester.id (requester.firstName ++ " " ++ requester.lastName)
                  msg1 mid1 t1)
                (st.conversations
                  ++ [createConversation requester otherUser none none cid1 t1]))
              (createConversation requester otherUser none none cid1 t1)
              (strTrim msg1) requester.id t1 := by
        rw [← hstA, hr1]; rfl
      rw [hstA]
      unfold createConvRoute
      rw [husersA]
      simp only [hv2, Bool.not_true, Bool.false_eq_true, if_false, hbeq, huser, hact]
      rw [hconvsA, hfb2]
      rfl
  · intro convs u v
    unfold findBetweenUsers
    have hperm : (fun c : Conversation =>
          c.hasParticipant u && c.hasParticipant v && c.isActive)
        = (fun c => c.hasParticipant v && c.hasParticipant u && c.isActive) := by
      funext c
      rw [Bool.and_comm (c.hasParticipant u) (c.hasParticipant v)]
    rw [hperm]

def c2st : St := { users := [uAx, uBx], services := [], conversations := [], messages := [] }

/-- Witness for C2 at a concrete pair of calls. -/
theorem c2_witness :
    ∃ cid,
      (createConvRoute c2st uAx uBx.id none "Bonjour" 10 11 5).1 = .ok cid
      ∧ (createConvRoute (createConvRoute c2st uAx uBx.id none "Bonjour" 10 11 5).2
           uAx uBx.id none "Re" 12 13 6).1 = .ok cid :=
  (c2_get_or_create_idempotent_unordered c2st uAx uBx none "Bonjour" "Re" 10 11 5 12 13 6
      (by decide) (by decide) (by decide) (by decide) (by decide) (by decide)
      (by decide)).1
